import Mathlib

/-!
Verification development for the purchase-release core of the
`loiro_das_milhas` repository (route handler `POST` of the release
endpoint, together with its helpers `clampPts`, `toProgramKey` and
`computeProgramDeltas`).

The handler is embedded shallowly: the relational store is an explicit
`DB` value, each Prisma call becomes a pure function on `DB`, the
`$transaction` block becomes a function returning `Except` whose error
result discards the candidate state (rollback), and JavaScript's loose
numeric values are modelled by `JsNum` (a finite rational, or a
non-finite value — `NaN`/`Infinity` — which `Number.isFinite` rejects).
-/

namespace LoiroDasMilhas

/-- A JavaScript number after `Number(...)` coercion: either a finite
value (modelled as a rational, so `Math.trunc` is meaningful) or a
non-finite value (`NaN`, `Infinity`, `-Infinity`), all of which fail
`Number.isFinite`. -/
inductive JsNum where
  | fin (q : ℚ)
  | nonFinite
deriving DecidableEq, Repr

/-- JavaScript `Math.trunc` on a finite number: rounding toward zero. -/
def ratTrunc (q : ℚ) : ℤ := if 0 ≤ q then ⌊q⌋ else ⌈q⌉

/-- Embedding of `clampPts` (source lines 190–194):
`const n = Number(v); if (!Number.isFinite(n)) return 0; return Math.max(0, Math.trunc(n));`. -/
def clampPts : JsNum → ℤ
  | .fin q => max 0 (ratTrunc q)
  | .nonFinite => 0

/-- `clampPts` applied to a value that is already a database integer
(`Number` of an integer is the same finite number, and `Math.trunc` is
the identity on it). -/
def clampInt (n : ℤ) : ℤ := max 0 n

/-- An integer injected into the JavaScript number domain. -/
def intJs (n : ℤ) : JsNum := .fin (n : ℚ)

theorem ratTrunc_intCast (n : ℤ) : ratTrunc (n : ℚ) = n := by
  unfold ratTrunc
  split <;> simp

theorem clampPts_intJs (n : ℤ) : clampPts (intJs n) = clampInt n := by
  simp [clampPts, intJs, clampInt, ratTrunc_intCast]

theorem clampPts_nonneg (v : JsNum) : 0 ≤ clampPts v := by
  cases v with
  | fin q => exact le_max_left 0 (ratTrunc q)
  | nonFinite => exact le_refl 0

theorem clampInt_nonneg (n : ℤ) : 0 ≤ clampInt n := le_max_left 0 n

/-- The nine loyalty-program keys (source type `ProgramKey`). -/
inductive ProgramKey where
  | latam | smiles | livelo | esfera | azul | iberia | aa | tap | flyingBlue
deriving DecidableEq, Repr

/-- ASCII upper-casing of one character, as JavaScript `toUpperCase`
acts on the basic latin range (the only range the program names and
status strings use). -/
def charUpper (c : Char) : Char :=
  if 97 ≤ c.toNat ∧ c.toNat ≤ 122 then Char.ofNat (c.toNat - 32) else c

/-- JavaScript `toUpperCase` over a whole string. -/
def strUpper (s : String) : String := ⟨s.data.map charUpper⟩

/-- A whitespace character as JavaScript `trim` understands it (the
common ASCII forms). -/
def isWsChar (c : Char) : Bool := c == ' ' || c == '\t' || c == '\n' || c == '\r'

/-- JavaScript `trim`: drop whitespace from both ends. -/
def strTrim (s : String) : String :=
  ⟨((s.data.dropWhile isWsChar).reverse.dropWhile isWsChar).reverse⟩

/-- Embedding of `toProgramKey` (source lines 207–219).  A `none`
argument stands for a nullish JavaScript value, which `String(v || "")`
turns into the empty string. -/
def toProgramKey (v : Option String) : Option ProgramKey :=
  let up := strUpper (strTrim (v.getD ""))
  if up == "LATAM" then some .latam
  else if up == "SMILES" then some .smiles
  else if up == "LIVELO" then some .livelo
  else if up == "ESFERA" then some .esfera
  else if up == "AZUL" then some .azul
  else if up == "IBERIA" then some .iberia
  else if up == "AA" then some .aa
  else if up == "TAP" then some .tap
  else if up == "FLYING_BLUE" then some .flyingBlue
  else none

/-- A purchase line item as the release route reads it.  String fields
are optional (nullable columns / loose `any` access), numeric fields are
loose JavaScript numbers fed to `clampPts`. -/
structure PurchaseItem where
  purchaseId : String
  status : Option String
  programTo : Option String
  programFrom : Option String
  pointsFinal : JsNum
  pointsDebitedFromOrigin : JsNum
deriving DecidableEq, Repr

/-- Pointwise additive update of a program map (`out[k] += d`). -/
def updAdd (m : ProgramKey → ℤ) (k : ProgramKey) (d : ℤ) : ProgramKey → ℤ :=
  fun j => if j = k then m j + d else m j

/-- One iteration of the loop body of `computeProgramDeltas`
(source lines 234–242). -/
def deltaStep (out : ProgramKey → ℤ) (it : PurchaseItem) : ProgramKey → ℤ :=
  if strUpper (it.status.getD "") == "CANCELED" then out
  else
    let out1 := match toProgramKey it.programTo with
      | some k => updAdd out k (clampPts it.pointsFinal)
      | none => out
    match toProgramKey it.programFrom with
    | some k => updAdd out1 k (-(clampPts it.pointsDebitedFromOrigin))
    | none => out1

/-- Embedding of `computeProgramDeltas` (source lines 221–245): fold the
loop body over the item list starting from the all-zero map. -/
def computeProgramDeltas (items : List PurchaseItem) : ProgramKey → ℤ :=
  items.foldl deltaStep (fun _ => 0)

/-- The net contribution of a single item to one program's delta, read
off from the spec's description of the Delta Resolver: zero for a
(case-insensitively) `CANCELED` item, otherwise a credit of
`clamp(pointsFinal)` when `programTo` resolves to this key minus a debit
of `clamp(pointsDebitedFromOrigin)` when `programFrom` resolves to this
key. -/
def itemContrib (it : PurchaseItem) (k : ProgramKey) : ℤ :=
  if strUpper (it.status.getD "") == "CANCELED" then 0
  else
    (if toProgramKey it.programTo = some k then clampPts it.pointsFinal else 0)
      - (if toProgramKey it.programFrom = some k then clampPts it.pointsDebitedFromOrigin else 0)

theorem deltaStep_apply (out : ProgramKey → ℤ) (it : PurchaseItem) (k : ProgramKey) :
    deltaStep out it k = out k + itemContrib it k := by
  unfold deltaStep itemContrib
  by_cases hc : (strUpper (it.status.getD "") == "CANCELED") = true
  · simp [hc]
  · simp only [hc, if_false, Bool.false_eq_true]
    cases hto : toProgramKey it.programTo with
    | none =>
      cases hfrom : toProgramKey it.programFrom with
      | none => simp [hto, hfrom]
      | some kf =>
        rcases eq_or_ne k kf with hk | hk
        · subst hk; simp [hto, hfrom, updAdd]
        · simp [hto, hfrom, updAdd, hk, hk.symm]
    | some kt =>
      cases hfrom : toProgramKey it.programFrom with
      | none =>
        rcases eq_or_ne k kt with hk | hk
        · subst hk; simp [hto, hfrom, updAdd]
        · simp [hto, hfrom, updAdd, hk, hk.symm]
      | some kf =>
        rcases eq_or_ne k kt with h1 | h1
        · rcases eq_or_ne k kf with h2 | h2
          · subst h1; subst h2; simp [hto, hfrom, updAdd]; try omega
          · subst h1; simp [hto, hfrom, updAdd, h2, h2.symm]; try omega
        · rcases eq_or_ne k kf with h2 | h2
          · subst h2; simp [hto, hfrom, updAdd, h1, h1.symm]; try omega
          · simp [hto, hfrom, updAdd, h1, h1.symm, h2, h2.symm]; try omega

theorem foldl_deltaStep_apply (items : List PurchaseItem) (out : ProgramKey → ℤ)
    (k : ProgramKey) :
    (items.foldl deltaStep out) k = out k + (items.map (fun it => itemContrib it k)).sum := by
  induction items generalizing out with
  | nil => simp
  | cons it rest ih =>
    simp only [List.foldl_cons, List.map_cons, List.sum_cons]
    rw [ih, deltaStep_apply]
    ring

theorem computeProgramDeltas_eq_sum (items : List PurchaseItem) (k : ProgramKey) :
    computeProgramDeltas items k = (items.map (fun it => itemContrib it k)).sum := by
  unfold computeProgramDeltas
  rw [foldl_deltaStep_apply]
  simp

/-- A cedente row: the nine per-program integer point counters
(identity fields other than the key are irrelevant to the release). -/
structure Cedente where
  id : String
  pontosLatam : ℤ
  pontosSmiles : ℤ
  pontosLivelo : ℤ
  pontosEsfera : ℤ
  pontosAzul : ℤ
  pontosIberia : ℤ
  pontosAA : ℤ
  pontosTAP : ℤ
  pontosFlyingBlue : ℤ
deriving DecidableEq, Repr

/-- The counter of a cedente for one program (the field selected on
source lines 70–80). -/
def pointsOf (c : Cedente) : ProgramKey → ℤ
  | .latam => c.pontosLatam
  | .smiles => c.pontosSmiles
  | .livelo => c.pontosLivelo
  | .esfera => c.pontosEsfera
  | .azul => c.pontosAzul
  | .iberia => c.pontosIberia
  | .aa => c.pontosAA
  | .tap => c.pontosTAP
  | .flyingBlue => c.pontosFlyingBlue

/-- The cedente update payload of source lines 117–130: every one of
the nine counters replaced by the applied balance. -/
def setPoints (c : Cedente) (applied : ProgramKey → ℤ) : Cedente :=
  { c with
    pontosLatam := applied .latam
    pontosSmiles := applied .smiles
    pontosLivelo := applied .livelo
    pontosEsfera := applied .esfera
    pontosAzul := applied .azul
    pontosIberia := applied .iberia
    pontosAA := applied .aa
    pontosTAP := applied .tap
    pontosFlyingBlue := applied .flyingBlue }

theorem pointsOf_setPoints (c : Cedente) (applied : ProgramKey → ℤ) (k : ProgramKey) :
    pointsOf (setPoints c applied) k = applied k := by
  cases k <;> rfl

theorem setPoints_id (c : Cedente) (applied : ProgramKey → ℤ) :
    (setPoints c applied).id = c.id := rfl

/-- A purchase row as the release route reads and writes it.  Nullable
columns are `Option`; `status` is the string form of the Prisma enum. -/
structure Purchase where
  id : String
  cedenteId : String
  status : String
  saldoPrevistoLatam : Option ℤ
  saldoPrevistoSmiles : Option ℤ
  saldoPrevistoLivelo : Option ℤ
  saldoPrevistoEsfera : Option ℤ
  saldoAplicadoLatam : Option ℤ
  saldoAplicadoSmiles : Option ℤ
  saldoAplicadoLivelo : Option ℤ
  saldoAplicadoEsfera : Option ℤ
  cedentePayCents : Option ℤ
  liberadoEm : Option ℕ
  liberadoPorId : Option String
deriving DecidableEq, Repr

/-- A cedente-commission row. -/
structure CedenteCommission where
  cedenteId : String
  purchaseId : String
  amountCents : ℤ
  status : String
  generatedById : String
  generatedAt : ℕ
  paidAt : Option ℕ
  paidById : Option String
deriving DecidableEq, Repr

/-- The optional `saldosAplicados` override map of the request body.  A
`none` field stands for an absent, `undefined` or `null` JSON value —
exactly the values the `??` chain skips; when the whole
`saldosAplicados` object is absent, optional chaining makes every field
read `undefined`, i.e. all fields are `none`. -/
structure SaldosAplicados where
  latam : Option JsNum := none
  smiles : Option JsNum := none
  livelo : Option JsNum := none
  esfera : Option JsNum := none
  azul : Option JsNum := none
  iberia : Option JsNum := none
  aa : Option JsNum := none
  tap : Option JsNum := none
  flyingBlue : Option JsNum := none
deriving DecidableEq, Repr

/-- JavaScript nullish coalescing `a ?? b` where `a` may be nullish. -/
def jsNullish (a : Option JsNum) (b : JsNum) : JsNum := a.getD b

/-- Embedding of the `applied` record of source lines 88–114: one
nullish-coalescing chain per program, the whole chain fed to
`clampPts`.  The four legacy programs fall back to the purchase's
`saldoPrevisto*` column before using current balance plus delta; the
other five go straight from override to current balance plus delta. -/
def resolveApplied (ov : SaldosAplicados) (p : Purchase)
    (current deltas : ProgramKey → ℤ) : ProgramKey → ℤ
  | .latam => clampPts (jsNullish ov.latam
      (jsNullish (p.saldoPrevistoLatam.map intJs) (intJs (current .latam + deltas .latam))))
  | .smiles => clampPts (jsNullish ov.smiles
      (jsNullish (p.saldoPrevistoSmiles.map intJs) (intJs (current .smiles + deltas .smiles))))
  | .livelo => clampPts (jsNullish ov.livelo
      (jsNullish (p.saldoPrevistoLivelo.map intJs) (intJs (current .livelo + deltas .livelo))))
  | .esfera => clampPts (jsNullish ov.esfera
      (jsNullish (p.saldoPrevistoEsfera.map intJs) (intJs (current .esfera + deltas .esfera))))
  | .azul => clampPts (jsNullish ov.azul (intJs (current .azul + deltas .azul)))
  | .iberia => clampPts (jsNullish ov.iberia (intJs (current .iberia + deltas .iberia)))
  | .aa => clampPts (jsNullish ov.aa (intJs (current .aa + deltas .aa)))
  | .tap => clampPts (jsNullish ov.tap (intJs (current .tap + deltas .tap)))
  | .flyingBlue => clampPts (jsNullish ov.flyingBlue
      (intJs (current .flyingBlue + deltas .flyingBlue)))

/-- The override field of the request body for one program. -/
def overrideOf (ov : SaldosAplicados) : ProgramKey → Option JsNum
  | .latam => ov.latam
  | .smiles => ov.smiles
  | .livelo => ov.livelo
  | .esfera => ov.esfera
  | .azul => ov.azul
  | .iberia => ov.iberia
  | .aa => ov.aa
  | .tap => ov.tap
  | .flyingBlue => ov.flyingBlue

/-- The four original programs that carry a legacy predicted-balance
column on the purchase. -/
def isLegacy : ProgramKey → Bool
  | .latam => true
  | .smiles => true
  | .livelo => true
  | .esfera => true
  | _ => false

/-- The purchase's stored predicted-balance column for one program
(`none` for the five programs that have no such column). -/
def predictedOf (p : Purchase) : ProgramKey → Option ℤ
  | .latam => p.saldoPrevistoLatam
  | .smiles => p.saldoPrevistoSmiles
  | .livelo => p.saldoPrevistoLivelo
  | .esfera => p.saldoPrevistoEsfera
  | _ => none

/-- The spec's applied-balance policy, written as an explicit ordered
list of resolution strategies (highest priority first): the caller's
override if present; else, for the four legacy programs only, the
stored predicted balance if present; else current balance plus computed
delta — the chosen value clamped to a non-negative integer. -/
def resolveAppliedSpec (ov : SaldosAplicados) (p : Purchase)
    (current deltas : ProgramKey → ℤ) (k : ProgramKey) : ℤ :=
  match overrideOf ov k with
  | some v => clampPts v
  | none =>
    match (if isLegacy k then predictedOf p k else none) with
    | some n => clampInt n
    | none => clampInt (current k + deltas k)

theorem clamp_chain_legacy (o : Option JsNum) (pr : Option ℤ) (fb : ℤ) :
    clampPts (jsNullish o (jsNullish (pr.map intJs) (intJs fb))) =
      (match o with
       | some v => clampPts v
       | none =>
         match pr with
         | some n => clampInt n
         | none => clampInt fb) := by
  cases o with
  | some v => rfl
  | none =>
    cases pr with
    | some n => simp [jsNullish, clampPts_intJs]
    | none => simp [jsNullish, clampPts_intJs]

theorem clamp_chain_plain (o : Option JsNum) (fb : ℤ) :
    clampPts (jsNullish o (intJs fb)) =
      (match o with
       | some v => clampPts v
       | none => clampInt fb) := by
  cases o with
  | some v => rfl
  | none => simp [jsNullish, clampPts_intJs]

theorem resolveApplied_eq_spec (ov : SaldosAplicados) (p : Purchase)
    (current deltas : ProgramKey → ℤ) (k : ProgramKey) :
    resolveApplied ov p current deltas k = resolveAppliedSpec ov p current deltas k := by
  cases k <;>
    simp [resolveApplied, resolveAppliedSpec, overrideOf, isLegacy, predictedOf,
      clamp_chain_legacy, clamp_chain_plain]

/-- The relational store the route talks to, as explicit row lists. -/
structure DB where
  purchases : List Purchase
  cedentes : List Cedente
  items : List PurchaseItem
  commissions : List CedenteCommission
deriving DecidableEq, Repr

/-- `prisma.purchase.findUnique({ where: { id } })`. -/
def findPurchase (db : DB) (id : String) : Option Purchase :=
  db.purchases.find? (fun pu => pu.id == id)

/-- The `cedente` relation included with the purchase (`include:
cedente`): the cedente row referenced by `cedenteId`. -/
def findCedente (db : DB) (cedenteId : String) : Option Cedente :=
  db.cedentes.find? (fun c => c.id == cedenteId)

/-- The `items` relation included with the purchase. -/
def itemsOfPurchase (db : DB) (id : String) : List PurchaseItem :=
  db.items.filter (fun it => it.purchaseId == id)

/-- The applied balances computed inside the transaction for a given
snapshot: `resolveApplied` over the clamped current balances (lines
70–80) and the deltas of the purchase's items (line 82). -/
def appliedOf (ov : SaldosAplicados) (db : DB) (id : String)
    (stillOpen : Purchase) (ced : Cedente) : ProgramKey → ℤ :=
  resolveApplied ov stillOpen
    (fun k => clampInt (pointsOf ced k))
    (computeProgramDeltas (itemsOfPurchase db id))

/-- `tx.cedente.update` of source lines 117–130: replace the nine
counters of the cedente row. -/
def writeBalances (db : DB) (cedenteId : String) (applied : ProgramKey → ℤ) : DB :=
  { db with cedentes := db.cedentes.map (fun c =>
      if c.id == cedenteId then setPoints c applied else c) }

/-- `tx.purchaseItem.updateMany` of source lines 133–136: every item of
this purchase whose status is exactly `PENDING` becomes `RELEASED`. -/
def writeItemsReleased (db : DB) (id : String) : DB :=
  { db with items := db.items.map (fun it =>
      if it.purchaseId == id && it.status == some "PENDING"
      then { it with status := some "RELEASED" } else it) }

/-- The purchase update payload of source lines 139–152: stamp release
time and user, close the purchase, and record the applied snapshot for
the four legacy programs. -/
def closeOf (now : ℕ) (userId : String) (applied : ProgramKey → ℤ) (q : Purchase) : Purchase :=
  { q with
    liberadoEm := some now
    liberadoPorId := some userId
    status := "CLOSED"
    saldoAplicadoLatam := some (applied .latam)
    saldoAplicadoSmiles := some (applied .smiles)
    saldoAplicadoLivelo := some (applied .livelo)
    saldoAplicadoEsfera := some (applied .esfera) }

/-- `tx.purchase.update` of source lines 139–152 applied to the store. -/
def writePurchaseClosed (db : DB) (id : String) (now : ℕ) (userId : String)
    (applied : ProgramKey → ℤ) : DB :=
  { db with purchases := db.purchases.map (fun q =>
      if q.id == id then closeOf now userId applied q else q) }

/-- The `create` payload of the commission upsert (source lines
161–168); `generatedAt` takes the row default `now()`. -/
def commissionCreate (closed : Purchase) (userId : String) (now : ℕ)
    (amountCents : ℤ) : CedenteCommission :=
  { cedenteId := closed.cedenteId
    purchaseId := closed.id
    amountCents := amountCents
    status := "PENDING"
    generatedById := userId
    generatedAt := now
    paidAt := none
    paidById := none }

/-- The `update` payload of the commission upsert (source lines
169–177): replace the amount, reset status to `PENDING`, restamp the
generating user and clear the payment fields. -/
def commissionUpdate (userId : String) (amountCents : ℤ)
    (c : CedenteCommission) : CedenteCommission :=
  { c with
    amountCents := amountCents
    status := "PENDING"
    generatedById := userId
    paidAt := none
    paidById := none }

/-- `tx.cedenteCommission.upsert` keyed by `purchaseId` (source lines
159–178): update the existing row in place when one exists, otherwise
insert the freshly created row; either way the resulting row is
returned. -/
def writeCommissionUpsert (db : DB) (closed : Purchase) (userId : String) (now : ℕ)
    (amountCents : ℤ) : DB × CedenteCommission :=
  match db.commissions.find? (fun c => c.purchaseId == closed.id) with
  | some c0 =>
    ({ db with commissions := db.commissions.map (fun c =>
        if c.purchaseId == closed.id then commissionUpdate userId amountCents c else c) },
      commissionUpdate userId amountCents c0)
  | none =>
    let c := commissionCreate closed userId now amountCents
    ({ db with commissions := db.commissions ++ [c] }, c)

/-- The value returned by the transaction callback (source line 181). -/
structure TxResult where
  compra : Purchase
  commission : Option CedenteCommission
deriving DecidableEq, Repr

/-- The error text standing for an arbitrary storage-layer exception
injected during one of the transaction's write statements. -/
def simulatedFailureMsg : String := "Simulated storage failure."

/-- The validation prefix of the transaction callback (source lines
59–68): re-read the purchase with its cedente and items and re-check
the preconditions, throwing on violation. -/
def txValidate (db : DB) (id : String) : Except String (Purchase × Cedente) :=
  match findPurchase db id with
  | none => .error "Compra não encontrada."
  | some stillOpen =>
    if stillOpen.status ≠ "OPEN" then
      .error "Compra já não está OPEN (possível dupla liberação)."
    else
      match findCedente db stillOpen.cedenteId with
      | none => .error "Cedente não encontrado na compra."
      | some ced => .ok (stillOpen, ced)

/-- The write sequence of the transaction callback (source lines
70–181), with an optional injected storage fault in front of each of
the four write statements (`fault = some 0`: balance update, `1`: bulk
item update, `2`: purchase close, `3`: commission upsert). -/
def txBody (fault : Option ℕ) (now : ℕ) (db : DB) (id userId : String)
    (ov : SaldosAplicados) (stillOpen : Purchase) (ced : Cedente) :
    Except String (DB × TxResult) :=
  let applied := appliedOf ov db id stillOpen ced
  if fault = some 0 then .error simulatedFailureMsg else
  let dbA := writeBalances db stillOpen.cedenteId applied
  if fault = some 1 then .error simulatedFailureMsg else
  let dbB := writeItemsReleased dbA id
  if fault = some 2 then .error simulatedFailureMsg else
  let closed := closeOf now userId applied stillOpen
  let dbC := writePurchaseClosed dbB id now userId applied
  let amountCents := closed.cedentePayCents.getD 0
  if amountCents > 0 then
    if fault = some 3 then .error simulatedFailureMsg else
    let upsert := writeCommissionUpsert dbC closed userId now amountCents
    .ok (upsert.1, { compra := closed, commission := some upsert.2 })
  else
    .ok (dbC, { compra := closed, commission := none })

/-- Embedding of the `prisma.$transaction` callback (source lines
58–182).  An `Except.error` result models a thrown exception: the
candidate writes are discarded by the caller (the store rolls the
transaction back), so the error constructor carries no state. -/
def releaseTx (fault : Option ℕ) (now : ℕ) (db : DB) (id userId : String)
    (ov : SaldosAplicados) : Except String (DB × TxResult) :=
  match txValidate db id with
  | .error e => .error e
  | .ok (stillOpen, ced) => txBody fault now db id userId ov stillOpen ced

/-- The HTTP response envelope.  Modelled from the spec: the response
helpers `ok`/`badRequest`/`notFound`/`serverError` live in `lib/api`,
which is not among the provided sources; §6 of the spec fixes their
status codes (200/400/404/500). -/
inductive Response where
  | ok (result : TxResult)
  | badRequest (msg : String)
  | notFound (msg : String)
  | serverError (msg : String) (detail : Option String)
deriving DecidableEq, Repr

/-- HTTP status code of a response.  Modelled from the spec: "400 for
precondition failures, 404 for not-found, 500 for unexpected failures"
(§6). -/
def Response.statusCode : Response → ℕ
  | .ok _ => 200
  | .badRequest _ => 400
  | .notFound _ => 404
  | .serverError _ _ => 500

/-- Embedding of the route handler `POST` (source lines 17–188).

`recompute` stands for the external collaborator `recomputeCompra(id)`
(its source, `lib/compras`, is not among the provided files; per spec
§6 it reconciles the purchase's predicted-balance fields and is
otherwise out of scope), applied to the store between the first
validation and the re-read.  `interfere` stands for writes committed by
concurrent requests between the pre-transaction checks and the
transaction's snapshot read; a sequential run is `interfere = id`.

The pair returned is the HTTP response together with the store after
the call; a transaction error keeps the pre-transaction store
(rollback) and is caught by the outer `try`/`catch` as a generic
server error carrying the cause as detail. -/
def releasePurchase (recompute interfere : DB → DB) (fault : Option ℕ) (now : ℕ)
    (db : DB) (id : String) (session : Option String) (ov : SaldosAplicados) :
    Response × DB :=
  if id = "" then (.badRequest "id é obrigatório.", db)
  else
    let userId := session.getD ""
    if userId = "" then (.badRequest "Sessão inválida: faça login novamente.", db)
    else
      match findPurchase db id with
      | none => (.notFound "Compra não encontrada.", db)
      | some compraBase =>
        if compraBase.status ≠ "OPEN" then (.badRequest "Só pode liberar compra OPEN.", db)
        else
          let db1 := recompute db
          match findPurchase db1 id with
          | none => (.notFound "Compra não encontrada (pós-recompute).", db1)
          | some compra =>
            if compra.status ≠ "OPEN" then (.badRequest "Só pode liberar compra OPEN.", db1)
            else if (findCedente db1 compra.cedenteId).isNone then
              (.badRequest "Cedente não encontrado na compra.", db1)
            else
              let db2 := interfere db1
              match releaseTx fault now db2 id userId ov with
              | .ok (db3, res) => (.ok res, db3)
              | .error e => (.serverError "Falha ao liberar compra." (some e), db2)

theorem find?_condMap {α : Type} (l : List α) (p : α → Bool) (g : α → α)
    (hg : ∀ x, p x = true → p (g x) = true) :
    (l.map (fun x => if p x then g x else x)).find? p = (l.find? p).map g := by
  induction l with
  | nil => rfl
  | cons x xs ih =>
    by_cases hx : p x = true
    · simp [List.find?_cons, hx, hg x hx]
    · have hx' : p x = false := by simpa using hx
      simpa [List.find?_cons, hx'] using ih

theorem countP_condMap {α : Type} (l : List α) (p : α → Bool) (g : α → α)
    (hg : ∀ x, p x = true → p (g x) = true) :
    (l.map (fun x => if p x then g x else x)).countP p = l.countP p := by
  induction l with
  | nil => rfl
  | cons x xs ih =>
    by_cases hx : p x = true
    · simp [List.countP_cons, hx, hg x hx, ih]
    · have hx' : p x = false := by simpa using hx
      simp [List.countP_cons, hx', ih]

theorem filter_neg_condMap {α : Type} (l : List α) (p : α → Bool) (g : α → α)
    (hg : ∀ x, p x = true → p (g x) = true) :
    (l.map (fun x => if p x then g x else x)).filter (fun x => !(p x)) =
      l.filter (fun x => !(p x)) := by
  induction l with
  | nil => rfl
  | cons x xs ih =>
    by_cases hx : p x = true
    · simp [List.filter_cons, hx, hg x hx, ih]
    · have hx' : p x = false := by simpa using hx
      simp [List.filter_cons, hx', ih]

theorem findPurchase_some_id (db : DB) (id : String) (p : Purchase)
    (h : findPurchase db id = some p) : p.id = id := by
  have := List.find?_some h
  simpa using this

theorem txValidate_ok_elim {db : DB} {id : String} {s : Purchase} {c : Cedente}
    (h : txValidate db id = .ok (s, c)) :
    findPurchase db id = some s ∧ s.status = "OPEN" ∧ findCedente db s.cedenteId = some c := by
  unfold txValidate at h
  split at h
  next hfind => exact absurd h (by simp)
  next stillOpen hfind =>
    split at h
    next hne => exact absurd h (by simp)
    next hopen =>
      split at h
      next hced => exact absurd h (by simp)
      next ced hced =>
        have hp := Except.ok.inj h
        have hs : stillOpen = s := congrArg Prod.fst hp
        have hc : ced = c := congrArg Prod.snd hp
        subst hs; subst hc
        exact ⟨hfind, not_not.mp hopen, hced⟩

theorem txValidate_ok_intro {db : DB} {id : String} {s : Purchase} {c : Cedente}
    (hfind : findPurchase db id = some s) (hopen : s.status = "OPEN")
    (hced : findCedente db s.cedenteId = some c) :
    txValidate db id = .ok (s, c) := by
  simp [txValidate, hfind, hced, hopen]

theorem txValidate_notOpen {db : DB} {id : String} {s : Purchase}
    (hfind : findPurchase db id = some s) (hopen : s.status ≠ "OPEN") :
    txValidate db id = .error "Compra já não está OPEN (possível dupla liberação)." := by
  simp [txValidate, hfind, hopen]

theorem txValidate_noCedente {db : DB} {id : String} {s : Purchase}
    (hfind : findPurchase db id = some s) (hopen : s.status = "OPEN")
    (hced : findCedente db s.cedenteId = none) :
    txValidate db id = .error "Cedente não encontrado na compra." := by
  simp [txValidate, hfind, hced, hopen]

/-- The state and result the transaction produces when every statement
succeeds. -/
def txSuccess (now : ℕ) (db : DB) (id userId : String) (ov : SaldosAplicados)
    (stillOpen : Purchase) (ced : Cedente) : DB × TxResult :=
  let applied := appliedOf ov db id stillOpen ced
  let dbC := writePurchaseClosed
    (writeItemsReleased (writeBalances db stillOpen.cedenteId applied) id) id now userId applied
  let closed := closeOf now userId applied stillOpen
  let amountCents := closed.cedentePayCents.getD 0
  if amountCents > 0 then
    let upsert := writeCommissionUpsert dbC closed userId now amountCents
    (upsert.1, { compra := closed, commission := some upsert.2 })
  else (dbC, { compra := closed, commission := none })

theorem writeBalances_cedentes (db : DB) (cid : String) (a : ProgramKey → ℤ) :
    (writeBalances db cid a).cedentes =
      db.cedentes.map (fun c => if c.id == cid then setPoints c a else c) := rfl

theorem writeBalances_purchases (db : DB) (cid : String) (a : ProgramKey → ℤ) :
    (writeBalances db cid a).purchases = db.purchases := rfl

theorem writeBalances_items (db : DB) (cid : String) (a : ProgramKey → ℤ) :
    (writeBalances db cid a).items = db.items := rfl

theorem writeBalances_commissions (db : DB) (cid : String) (a : ProgramKey → ℤ) :
    (writeBalances db cid a).commissions = db.commissions := rfl

theorem writeItemsReleased_items (db : DB) (id : String) :
    (writeItemsReleased db id).items =
      db.items.map (fun it =>
        if it.purchaseId == id && it.status == some "PENDING"
        then { it with status := some "RELEASED" } else it) := rfl

theorem writeItemsReleased_cedentes (db : DB) (id : String) :
    (writeItemsReleased db id).cedentes = db.cedentes := rfl

theorem writeItemsReleased_purchases (db : DB) (id : String) :
    (writeItemsReleased db id).purchases = db.purchases := rfl

theorem writeItemsReleased_commissions (db : DB) (id : String) :
    (writeItemsReleased db id).commissions = db.commissions := rfl

theorem writePurchaseClosed_purchases (db : DB) (id : String) (now : ℕ) (userId : String)
    (a : ProgramKey → ℤ) :
    (writePurchaseClosed db id now userId a).purchases =
      db.purchases.map (fun q => if q.id == id then closeOf now userId a q else q) := rfl

theorem writePurchaseClosed_cedentes (db : DB) (id : String) (now : ℕ) (userId : String)
    (a : ProgramKey → ℤ) :
    (writePurchaseClosed db id now userId a).cedentes = db.cedentes := rfl

theorem writePurchaseClosed_items (db : DB) (id : String) (now : ℕ) (userId : String)
    (a : ProgramKey → ℤ) :
    (writePurchaseClosed db id now userId a).items = db.items := rfl

theorem writePurchaseClosed_commissions (db : DB) (id : String) (now : ℕ) (userId : String)
    (a : ProgramKey → ℤ) :
    (writePurchaseClosed db id now userId a).commissions = db.commissions := rfl

theorem writeCommissionUpsert_fst_cedentes (db : DB) (closed : Purchase) (userId : String)
    (now : ℕ) (a : ℤ) :
    (writeCommissionUpsert db closed userId now a).1.cedentes = db.cedentes := by
  unfold writeCommissionUpsert; split <;> rfl

theorem writeCommissionUpsert_fst_items (db : DB) (closed : Purchase) (userId : String)
    (now : ℕ) (a : ℤ) :
    (writeCommissionUpsert db closed userId now a).1.items = db.items := by
  unfold writeCommissionUpsert; split <;> rfl

theorem writeCommissionUpsert_fst_purchases (db : DB) (closed : Purchase) (userId : String)
    (now : ℕ) (a : ℤ) :
    (writeCommissionUpsert db closed userId now a).1.purchases = db.purchases := by
  unfold writeCommissionUpsert; split <;> rfl

theorem txBody_none (now : ℕ) (db : DB) (id userId : String) (ov : SaldosAplicados)
    (s : Purchase) (c : Cedente) :
    txBody none now db id userId ov s c = .ok (txSuccess now db id userId ov s c) := by
  unfold txBody txSuccess
  simp only [reduceCtorEq, if_false]
  split <;> simp

theorem closeOf_cedentePayCents (now : ℕ) (userId : String) (a : ProgramKey → ℤ)
    (q : Purchase) : (closeOf now userId a q).cedentePayCents = q.cedentePayCents := rfl

theorem closeOf_id (now : ℕ) (userId : String) (a : ProgramKey → ℤ)
    (q : Purchase) : (closeOf now userId a q).id = q.id := rfl

theorem txBody_some3_pos {now : ℕ} {db : DB} {id userId : String} {ov : SaldosAplicados}
    {s : Purchase} {c : Cedente} (hpos : 0 < s.cedentePayCents.getD 0) :
    txBody (some 3) now db id userId ov s c = .error simulatedFailureMsg := by
  simp [txBody, closeOf_cedentePayCents, hpos]

theorem txBody_some3_neg {now : ℕ} {db : DB} {id userId : String} {ov : SaldosAplicados}
    {s : Purchase} {c : Cedente} (hpos : ¬ 0 < s.cedentePayCents.getD 0) :
    txBody (some 3) now db id userId ov s c = txBody none now db id userId ov s c := by
  simp [txBody, closeOf_cedentePayCents, hpos]

theorem txBody_big {k : ℕ} (hk : 4 ≤ k) (now : ℕ) (db : DB) (id userId : String)
    (ov : SaldosAplicados) (s : Purchase) (c : Cedente) :
    txBody (some k) now db id userId ov s c = txBody none now db id userId ov s c := by
  have h0 : ¬ ((some k : Option ℕ) = some 0) := by simp; omega
  have h1 : ¬ ((some k : Option ℕ) = some 1) := by simp; omega
  have h2 : ¬ ((some k : Option ℕ) = some 2) := by simp; omega
  have h3 : ¬ ((some k : Option ℕ) = some 3) := by simp; omega
  simp [txBody, h0, h1, h2, h3]

theorem txBody_fault_error (k : ℕ) (hk : k < 3) (now : ℕ) (db : DB) (id userId : String)
    (ov : SaldosAplicados) (s : Purchase) (c : Cedente) :
    txBody (some k) now db id userId ov s c = .error simulatedFailureMsg := by
  interval_cases k <;> simp [txBody]

theorem txBody_ok_elim {fault : Option ℕ} {now : ℕ} {db : DB} {id userId : String}
    {ov : SaldosAplicados} {s : Purchase} {c : Cedente} {out : DB × TxResult}
    (h : txBody fault now db id userId ov s c = .ok out) :
    out = txSuccess now db id userId ov s c := by
  cases fault with
  | none =>
    rw [txBody_none] at h
    exact (Except.ok.inj h).symm
  | some k =>
    by_cases hk3 : k < 3
    · rw [txBody_fault_error k hk3] at h; exact absurd h (by simp)
    · by_cases hk4 : k = 3
      · subst hk4
        by_cases hpos : 0 < s.cedentePayCents.getD 0
        · rw [txBody_some3_pos hpos] at h; exact absurd h (by simp)
        · rw [txBody_some3_neg hpos, txBody_none] at h
          exact (Except.ok.inj h).symm
      · rw [txBody_big (by omega), txBody_none] at h
        exact (Except.ok.inj h).symm

theorem releaseTx_ok_elim {fault : Option ℕ} {now : ℕ} {db : DB} {id userId : String}
    {ov : SaldosAplicados} {out : DB × TxResult}
    (h : releaseTx fault now db id userId ov = .ok out) :
    ∃ s c, findPurchase db id = some s ∧ s.status = "OPEN" ∧
      findCedente db s.cedenteId = some c ∧ out = txSuccess now db id userId ov s c := by
  unfold releaseTx at h
  split at h
  next => exact absurd h (by simp)
  next s c hval =>
    obtain ⟨h1, h2, h3⟩ := txValidate_ok_elim hval
    exact ⟨s, c, h1, h2, h3, txBody_ok_elim h⟩

theorem releaseTx_ok_intro {db : DB} {id : String} {s : Purchase} {c : Cedente}
    (now : ℕ) (userId : String) (ov : SaldosAplicados)
    (hfind : findPurchase db id = some s) (hopen : s.status = "OPEN")
    (hced : findCedente db s.cedenteId = some c) :
    releaseTx none now db id userId ov = .ok (txSuccess now db id userId ov s c) := by
  simp [releaseTx, txValidate_ok_intro hfind hopen hced, txBody_none]

theorem releaseTx_notOpen {db : DB} {id : String} {s : Purchase}
    (fault : Option ℕ) (now : ℕ) (userId : String) (ov : SaldosAplicados)
    (hfind : findPurchase db id = some s) (hopen : s.status ≠ "OPEN") :
    releaseTx fault now db id userId ov =
      .error "Compra já não está OPEN (possível dupla liberação)." := by
  simp [releaseTx, txValidate_notOpen hfind hopen]

theorem releaseTx_noCedente {db : DB} {id : String} {s : Purchase}
    (fault : Option ℕ) (now : ℕ) (userId : String) (ov : SaldosAplicados)
    (hfind : findPurchase db id = some s) (hopen : s.status = "OPEN")
    (hced : findCedente db s.cedenteId = none) :
    releaseTx fault now db id userId ov = .error "Cedente não encontrado na compra." := by
  simp [releaseTx, txValidate_noCedente hfind hopen hced]

theorem txSuccess_fst_cedentes (now : ℕ) (db : DB) (id userId : String)
    (ov : SaldosAplicados) (s : Purchase) (c : Cedente) :
    (txSuccess now db id userId ov s c).1.cedentes =
      db.cedentes.map (fun x =>
        if x.id == s.cedenteId then setPoints x (appliedOf ov db id s c) else x) := by
  by_cases hpos : 0 < s.cedentePayCents.getD 0 <;>
    simp [txSuccess, closeOf_cedentePayCents, hpos, writeCommissionUpsert_fst_cedentes,
      writePurchaseClosed_cedentes, writeItemsReleased_cedentes, writeBalances_cedentes]

theorem txSuccess_fst_items (now : ℕ) (db : DB) (id userId : String)
    (ov : SaldosAplicados) (s : Purchase) (c : Cedente) :
    (txSuccess now db id userId ov s c).1.items =
      db.items.map (fun it =>
        if it.purchaseId == id && it.status == some "PENDING"
        then { it with status := some "RELEASED" } else it) := by
  by_cases hpos : 0 < s.cedentePayCents.getD 0 <;>
    simp [txSuccess, closeOf_cedentePayCents, hpos, writeCommissionUpsert_fst_items,
      writePurchaseClosed_items, writeItemsReleased_items, writeBalances_items]

theorem txSuccess_fst_purchases (now : ℕ) (db : DB) (id userId : String)
    (ov : SaldosAplicados) (s : Purchase) (c : Cedente) :
    (txSuccess now db id userId ov s c).1.purchases =
      db.purchases.map (fun q =>
        if q.id == id then closeOf now userId (appliedOf ov db id s c) q else q) := by
  by_cases hpos : 0 < s.cedentePayCents.getD 0 <;>
    simp [txSuccess, closeOf_cedentePayCents, hpos, writeCommissionUpsert_fst_purchases,
      writePurchaseClosed_purchases, writeItemsReleased_purchases, writeBalances_purchases]

theorem txSuccess_snd_compra (now : ℕ) (db : DB) (id userId : String)
    (ov : SaldosAplicados) (s : Purchase) (c : Cedente) :
    (txSuccess now db id userId ov s c).2.compra =
      closeOf now userId (appliedOf ov db id s c) s := by
  by_cases hpos : 0 < s.cedentePayCents.getD 0 <;> simp [txSuccess, closeOf_cedentePayCents, hpos]

theorem txSuccess_commission_pos_update {now : ℕ} {db : DB} {id userId : String}
    {ov : SaldosAplicados} {s : Purchase} {c : Cedente} {c0 : CedenteCommission}
    (hpos : 0 < s.cedentePayCents.getD 0)
    (hfound : db.commissions.find? (fun x => x.purchaseId == s.id) = some c0) :
    (txSuccess now db id userId ov s c).1.commissions =
      db.commissions.map (fun x =>
        if x.purchaseId == s.id
        then commissionUpdate userId (s.cedentePayCents.getD 0) x else x) ∧
    (txSuccess now db id userId ov s c).2.commission =
      some (commissionUpdate userId (s.cedentePayCents.getD 0) c0) := by
  constructor <;>
    simp [txSuccess, closeOf_cedentePayCents, closeOf_id, hpos, writeCommissionUpsert,
      writePurchaseClosed_commissions, writeItemsReleased_commissions,
      writeBalances_commissions, hfound]

theorem txSuccess_commission_pos_create {now : ℕ} {db : DB} {id userId : String}
    {ov : SaldosAplicados} {s : Purchase} {c : Cedente}
    (hpos : 0 < s.cedentePayCents.getD 0)
    (hnone : db.commissions.find? (fun x => x.purchaseId == s.id) = none) :
    (txSuccess now db id userId ov s c).1.commissions =
      db.commissions ++
        [commissionCreate (closeOf now userId (appliedOf ov db id s c) s) userId now
          (s.cedentePayCents.getD 0)] ∧
    (txSuccess now db id userId ov s c).2.commission =
      some (commissionCreate (closeOf now userId (appliedOf ov db id s c) s) userId now
        (s.cedentePayCents.getD 0)) := by
  constructor <;>
    simp [txSuccess, closeOf_cedentePayCents, closeOf_id, hpos, writeCommissionUpsert,
      writePurchaseClosed_commissions, writeItemsReleased_commissions,
      writeBalances_commissions, hnone]

theorem txSuccess_commission_neg {now : ℕ} {db : DB} {id userId : String}
    {ov : SaldosAplicados} {s : Purchase} {c : Cedente}
    (hpos : ¬ 0 < s.cedentePayCents.getD 0) :
    (txSuccess now db id userId ov s c).1.commissions = db.commissions ∧
    (txSuccess now db id userId ov s c).2.commission = none := by
  constructor <;>
    simp [txSuccess, closeOf_cedentePayCents, hpos, writePurchaseClosed_commissions,
      writeItemsReleased_commissions, writeBalances_commissions]

theorem txSuccess_findCedente (now : ℕ) (db : DB) (id userId : String)
    (ov : SaldosAplicados) (s : Purchase) (c : Cedente)
    (hced : findCedente db s.cedenteId = some c) :
    findCedente (txSuccess now db id userId ov s c).1 s.cedenteId =
      some (setPoints c (appliedOf ov db id s c)) := by
  unfold findCedente
  rw [txSuccess_fst_cedentes]
  rw [find?_condMap _ (fun x => x.id == s.cedenteId)
      (fun x => setPoints x (appliedOf ov db id s c))
      (fun x hx => by simpa [setPoints_id] using hx)]
  rw [show db.cedentes.find? (fun x => x.id == s.cedenteId) = some c from hced]
  rfl

theorem releasePurchase_notOpen {r i : DB → DB} {f : Option ℕ} {now : ℕ} {db : DB}
    {id : String} {sess : Option String} {ov : SaldosAplicados} {p : Purchase}
    (hid : id ≠ "") (hsess : sess.getD "" ≠ "")
    (hfind : findPurchase db id = some p) (hst : p.status ≠ "OPEN") :
    releasePurchase r i f now db id sess ov =
      (.badRequest "Só pode liberar compra OPEN.", db) := by
  simp [releasePurchase, hid, hsess, hfind, hst]

theorem releasePurchase_noCedente_pre {r i : DB → DB} {f : Option ℕ} {now : ℕ} {db : DB}
    {id : String} {sess : Option String} {ov : SaldosAplicados} {p q : Purchase}
    (hid : id ≠ "") (hsess : sess.getD "" ≠ "")
    (hfind : findPurchase db id = some p) (hst : p.status = "OPEN")
    (hfind1 : findPurchase (r db) id = some q) (hst1 : q.status = "OPEN")
    (hced : findCedente (r db) q.cedenteId = none) :
    releasePurchase r i f now db id sess ov =
      (.badRequest "Cedente não encontrado na compra.", r db) := by
  simp [releasePurchase, hid, hsess, hfind, hst, hfind1, hst1, hced]

theorem releasePurchase_ok_elim {r i : DB → DB} {f : Option ℕ} {now : ℕ} {db : DB}
    {id : String} {sess : Option String} {ov : SaldosAplicados} {res : TxResult} {db' : DB}
    (h : releasePurchase r i f now db id sess ov = (.ok res, db')) :
    ∃ s c, findPurchase (i (r db)) id = some s ∧ s.status = "OPEN" ∧
      findCedente (i (r db)) s.cedenteId = some c ∧
      db' = (txSuccess now (i (r db)) id (sess.getD "") ov s c).1 ∧
      res = (txSuccess now (i (r db)) id (sess.getD "") ov s c).2 := by
  by_cases hid : id = ""
  · simp [releasePurchase, hid] at h
  by_cases hsess : sess.getD "" = ""
  · simp [releasePurchase, hid, hsess] at h
  cases hbase : findPurchase db id with
  | none => simp [releasePurchase, hid, hsess, hbase] at h
  | some compraBase =>
    by_cases hbopen : compraBase.status = "OPEN"
    case neg => simp [releasePurchase, hid, hsess, hbase, hbopen] at h
    case pos =>
    cases hcompra : findPurchase (r db) id with
    | none => simp [releasePurchase, hid, hsess, hbase, hbopen, hcompra] at h
    | some compra =>
      by_cases hcopen : compra.status = "OPEN"
      case neg => simp [releasePurchase, hid, hsess, hbase, hbopen, hcompra, hcopen] at h
      case pos =>
      cases hced : findCedente (r db) compra.cedenteId with
      | none =>
        simp [releasePurchase, hid, hsess, hbase, hbopen, hcompra, hcopen, hced] at h
      | some c1 =>
        cases htx : releaseTx f now (i (r db)) id (sess.getD "") ov with
        | error e =>
          simp [releasePurchase, hid, hsess, hbase, hbopen, hcompra, hcopen, hced, htx] at h
        | ok out =>
          obtain ⟨db3, res0⟩ := out
          simp [releasePurchase, hid, hsess, hbase, hbopen, hcompra, hcopen, hced, htx] at h
          obtain ⟨hres, hdb⟩ := h
          obtain ⟨s, c, h1, h2, h3, hout⟩ := releaseTx_ok_elim htx
          refine ⟨s, c, h1, h2, h3, ?_, ?_⟩
          · rw [← hdb, show db3 = (db3, res0).1 from rfl, hout]
          · rw [← hres, show res0 = (db3, res0).2 from rfl, hout]

theorem releasePurchase_serverError_elim {r i : DB → DB} {f : Option ℕ} {now : ℕ}
    {db : DB} {id : String} {sess : Option String} {ov : SaldosAplicados}
    {m : String} {d : Option String} {db' : DB}
    (h : releasePurchase r i f now db id sess ov = (.serverError m d, db')) :
    m = "Falha ao liberar compra." ∧ db' = i (r db) ∧
      ∃ e, d = some e ∧ releaseTx f now (i (r db)) id (sess.getD "") ov = .error e := by
  by_cases hid : id = ""
  · simp [releasePurchase, hid] at h
  by_cases hsess : sess.getD "" = ""
  · simp [releasePurchase, hid, hsess] at h
  cases hbase : findPurchase db id with
  | none => simp [releasePurchase, hid, hsess, hbase] at h
  | some compraBase =>
    by_cases hbopen : compraBase.status = "OPEN"
    case neg => simp [releasePurchase, hid, hsess, hbase, hbopen] at h
    case pos =>
    cases hcompra : findPurchase (r db) id with
    | none => simp [releasePurchase, hid, hsess, hbase, hbopen, hcompra] at h
    | some compra =>
      by_cases hcopen : compra.status = "OPEN"
      case neg => simp [releasePurchase, hid, hsess, hbase, hbopen, hcompra, hcopen] at h
      case pos =>
      cases hced : findCedente (r db) compra.cedenteId with
      | none =>
        simp [releasePurchase, hid, hsess, hbase, hbopen, hcompra, hcopen, hced] at h
      | some c1 =>
        cases htx : releaseTx f now (i (r db)) id (sess.getD "") ov with
        | ok out =>
          obtain ⟨db3, res0⟩ := out
          simp [releasePurchase, hid, hsess, hbase, hbopen, hcompra, hcopen, hced, htx] at h
        | error e =>
          simp [releasePurchase, hid, hsess, hbase, hbopen, hcompra, hcopen, hced, htx] at h
          obtain ⟨⟨hm1, hm2⟩, hdb⟩ := h
          exact ⟨hm1.symm, hdb.symm, e, hm2.symm, rfl⟩


instance {e a : Type} [DecidableEq e] [DecidableEq a] : DecidableEq (Except e a) := fun x y =>
  match x, y with
  | .ok u, .ok v => if h : u = v then isTrue (by rw [h]) else isFalse (by simp [h])
  | .error u, .error v => if h : u = v then isTrue (by rw [h]) else isFalse (by simp [h])
  | .ok _, .error _ => isFalse (by simp)
  | .error _, .ok _ => isFalse (by simp)

/-- A concrete cedente used by the witness runs. -/
def exCedente : Cedente :=
  { id := "c1", pontosLatam := 100, pontosSmiles := 80, pontosLivelo := 0,
    pontosEsfera := 5, pontosAzul := 7, pontosIberia := 0, pontosAA := 3,
    pontosTAP := 0, pontosFlyingBlue := 2 }

/-- A concrete pending item converting 50 SMILES points into 20 LATAM
points. -/
def exItem : PurchaseItem :=
  { purchaseId := "p1", status := some "PENDING", programTo := some "LATAM",
    programFrom := some "SMILES", pointsFinal := .fin 20,
    pointsDebitedFromOrigin := .fin 50 }

/-- A concrete canceled item with extreme field values, which must not
contribute anything. -/
def exItemCanceled : PurchaseItem :=
  { purchaseId := "p1", status := some "canceled", programTo := some "LATAM",
    programFrom := none, pointsFinal := .fin 1000,
    pointsDebitedFromOrigin := .nonFinite }

/-- A concrete open purchase with a legacy predicted LATAM balance of
150 and a payable amount of 5000 cents. -/
def exPurchase : Purchase :=
  { id := "p1", cedenteId := "c1", status := "OPEN",
    saldoPrevistoLatam := some 150, saldoPrevistoSmiles := none,
    saldoPrevistoLivelo := none, saldoPrevistoEsfera := none,
    saldoAplicadoLatam := none, saldoAplicadoSmiles := none,
    saldoAplicadoLivelo := none, saldoAplicadoEsfera := none,
    cedentePayCents := some 5000, liberadoEm := none, liberadoPorId := none }

/-- The concrete store the witness runs start from. -/
def exDB : DB :=
  { purchases := [exPurchase], cedentes := [exCedente],
    items := [exItem, exItemCanceled], commissions := [] }

/-- An empty override map (request body without `saldosAplicados`). -/
def exOv : SaldosAplicados := {}

/-- The cedente row expected after the witness release. -/
def exCedente1 : Cedente :=
  { id := "c1", pontosLatam := 150, pontosSmiles := 30, pontosLivelo := 0,
    pontosEsfera := 5, pontosAzul := 7, pontosIberia := 0, pontosAA := 3,
    pontosTAP := 0, pontosFlyingBlue := 2 }

/-- The purchase row expected after the witness release. -/
def exPurchase1 : Purchase :=
  { id := "p1", cedenteId := "c1", status := "CLOSED",
    saldoPrevistoLatam := some 150, saldoPrevistoSmiles := none,
    saldoPrevistoLivelo := none, saldoPrevistoEsfera := none,
    saldoAplicadoLatam := some 150, saldoAplicadoSmiles := some 30,
    saldoAplicadoLivelo := some 0, saldoAplicadoEsfera := some 5,
    cedentePayCents := some 5000, liberadoEm := some 5, liberadoPorId := some "u1" }

/-- The commission row expected after the witness release. -/
def exCommission1 : CedenteCommission :=
  { cedenteId := "c1", purchaseId := "p1", amountCents := 5000, status := "PENDING",
    generatedById := "u1", generatedAt := 5, paidAt := none, paidById := none }

/-- The store expected after the witness release. -/
def exDB1 : DB :=
  { purchases := [exPurchase1], cedentes := [exCedente1],
    items := [{ exItem with status := some "RELEASED" }, exItemCanceled],
    commissions := [exCommission1] }

theorem releasePurchase_ok_closed_after {r i : DB → DB} {f : Option ℕ} {now : ℕ}
    {db : DB} {id : String} {sess : Option String} {ov : SaldosAplicados}
    {res : TxResult} {db' : DB}
    (h : releasePurchase r i f now db id sess ov = (.ok res, db')) :
    ∃ p', findPurchase db' id = some p' ∧ p'.status = "CLOSED" := by
  obtain ⟨s, c, h1, h2, h3, hdb, hres⟩ := releasePurchase_ok_elim h
  subst hdb
  unfold findPurchase
  rw [txSuccess_fst_purchases]
  rw [find?_condMap _ (fun q => q.id == id)
      (closeOf now (sess.getD "") (appliedOf ov (i (r db)) id s c))
      (fun x hx => by simpa [closeOf_id] using hx)]
  rw [show (i (r db)).purchases.find? (fun pu => pu.id == id) = some s from h1]
  exact ⟨closeOf now (sess.getD "") (appliedOf ov (i (r db)) id s c) s, rfl, rfl⟩

/-- A purchase with its four legacy predicted-balance fields replaced
(used to state that the non-legacy programs ignore these fields). -/
def setPredicted (p : Purchase) (a b c d : Option ℤ) : Purchase :=
  { p with
    saldoPrevistoLatam := a
    saldoPrevistoSmiles := b
    saldoPrevistoLivelo := c
    saldoPrevistoEsfera := d }

/-- C1: Applied-balance precedence.  For every release of an OPEN
purchase and each of the nine programs, the balance the transaction
writes is resolved as, highest priority first: the caller's override
for that program when present in the request body; else, for the four
legacy programs LATAM/SMILES/LIVELO/ESFERA only, the purchase's stored
predicted-balance field when present; else the cedente's clamped
current balance plus the computed delta — and the resolved value is
clamped to a non-negative integer (`resolveAppliedSpec`).  With current
balance 100, delta +20, predicted 150 and no override the result is
150; adding an override of 999 for the program makes it 999; and for
the five non-legacy programs the predicted fields never affect the
result. -/
theorem claim_C1_applied_balance_precedence :
    (∀ (fault : Option ℕ) (now : ℕ) (db : DB) (id userId : String)
        (ov : SaldosAplicados) (out : DB × TxResult) (s : Purchase) (c : Cedente),
      releaseTx fault now db id userId ov = .ok out →
      findPurchase db id = some s →
      findCedente db s.cedenteId = some c →
      ∃ c', findCedente out.1 s.cedenteId = some c' ∧
        ∀ k, pointsOf c' k =
          resolveAppliedSpec ov s (fun j => clampInt (pointsOf c j))
            (computeProgramDeltas (itemsOfPurchase db id)) k) ∧
    (∀ (ov : SaldosAplicados) (p : Purchase) (current deltas : ProgramKey → ℤ)
        (k : ProgramKey),
      resolveApplied ov p current deltas k = resolveAppliedSpec ov p current deltas k) ∧
    (∀ (current deltas : ProgramKey → ℤ) (p : Purchase),
      current .latam = 100 → deltas .latam = 20 → p.saldoPrevistoLatam = some 150 →
      resolveApplied {} p current deltas .latam = 150) ∧
    (∀ (current deltas : ProgramKey → ℤ) (p : Purchase),
      current .latam = 100 → deltas .latam = 20 → p.saldoPrevistoLatam = some 150 →
      resolveApplied { latam := some (.fin 999) } p current deltas .latam = 999) ∧
    (∀ (ov : SaldosAplicados) (current deltas : ProgramKey → ℤ) (p : Purchase)
        (a b c d : Option ℤ) (k : ProgramKey), isLegacy k = false →
      resolveApplied ov (setPredicted p a b c d) current deltas k =
        resolveApplied ov p current deltas k) := by
  refine ⟨?_, ?_, ?_, ?_, ?_⟩
  · intro fault now db id userId ov out s c hok hfind hced
    obtain ⟨s', c', hfind', hopen', hced', hout⟩ := releaseTx_ok_elim hok
    rw [hfind] at hfind'
    cases Option.some.inj hfind'
    rw [hced] at hced'
    cases Option.some.inj hced'
    refine ⟨setPoints c (appliedOf ov db id s c), ?_, ?_⟩
    · rw [hout]
      exact txSuccess_findCedente now db id userId ov s c hced
    · intro k
      rw [pointsOf_setPoints]
      unfold appliedOf
      rw [resolveApplied_eq_spec]
  · exact resolveApplied_eq_spec
  · intro current deltas p hcur hdel hpred
    simp [resolveApplied, jsNullish, hpred, clampPts_intJs, clampInt]
  · intro current deltas p hcur hdel hpred
    simp [resolveApplied, jsNullish, hpred]
    decide
  · intro ov current deltas p a b c d k hk
    cases k <;> simp [isLegacy] at hk ⊢ <;> rfl

/-- Witness for C1: the concrete release run, whose LATAM balance shows
the predicted value 150 winning over 100 + 20. -/
theorem claim_C1_witness :
    findCedente exDB1 "c1" = some exCedente1 ∧
    pointsOf exCedente1 ProgramKey.latam = 150 ∧
    resolveAppliedSpec exOv exPurchase (fun j => clampInt (pointsOf exCedente j))
      (computeProgramDeltas (itemsOfPurchase exDB "p1")) ProgramKey.latam = 150 := by
  obtain ⟨c', hc', hpts⟩ :=
    claim_C1_applied_balance_precedence.1 none 5 exDB "p1" "u1" exOv
      (exDB1, { compra := exPurchase1, commission := some exCommission1 })
      exPurchase exCedente (by decide) (by decide) (by decide)
  have hc'' : c' = exCedente1 := by
    have h1 : findCedente exDB1 "c1" = some exCedente1 := by decide
    have h2 := hc'.symm.trans h1
    exact Option.some.inj h2
  subst hc''
  refine ⟨by decide, by decide, ?_⟩
  have := hpts ProgramKey.latam
  rw [← this]
  decide

theorem itemContrib_canceled {it : PurchaseItem} {k : ProgramKey}
    (h : strUpper (it.status.getD "") = "CANCELED") : itemContrib it k = 0 := by
  simp [itemContrib, h]

theorem itemContrib_unresolved {it : PurchaseItem} {k : ProgramKey}
    (h1 : toProgramKey it.programTo = none) (h2 : toProgramKey it.programFrom = none) :
    itemContrib it k = 0 := by
  simp [itemContrib, h1, h2]

theorem clampPts_fin_nonneg {q : ℚ} (h : 0 ≤ q) : clampPts (.fin q) = ⌊q⌋ := by
  simp only [clampPts, ratTrunc, if_pos h]
  exact max_eq_right (Int.floor_nonneg.mpr h)

theorem clampPts_fin_neg {q : ℚ} (h : q < 0) : clampPts (.fin q) = 0 := by
  simp only [clampPts, ratTrunc, if_neg (not_le.mpr h)]
  exact max_eq_left (Int.ceil_le.mpr (by exact_mod_cast h.le))

/-- C2: Delta Resolver correctness.  `computeProgramDeltas` is, per
program, the sum of independent per-item contributions: each item whose
status (case-insensitively) is not `CANCELED` adds `clampPts
pointsFinal` to the program resolved from `programTo` and subtracts
`clampPts pointsDebitedFromOrigin` from the program resolved from
`programFrom`; `CANCELED` items contribute zero whatever their fields;
unresolvable program names are silently ignored; the map starts at zero
for every key; `clampPts` returns 0 on a non-finite value and otherwise
truncates toward zero and floors at 0; `FLYING_BLUE` is the
(case-insensitive) wire form of `flyingBlue`. -/
theorem claim_C2_delta_resolver :
    (∀ (items : List PurchaseItem) (k : ProgramKey),
      computeProgramDeltas items k = (items.map (fun it => itemContrib it k)).sum) ∧
    (∀ k, computeProgramDeltas [] k = 0) ∧
    (∀ (it : PurchaseItem) (k : ProgramKey), strUpper (it.status.getD "") = "CANCELED" →
      itemContrib it k = 0) ∧
    (∀ (items : List PurchaseItem) (it : PurchaseItem) (k : ProgramKey),
      strUpper (it.status.getD "") = "CANCELED" →
      computeProgramDeltas (it :: items) k = computeProgramDeltas items k) ∧
    (∀ (it : PurchaseItem) (k : ProgramKey), ¬ strUpper (it.status.getD "") = "CANCELED" →
      itemContrib it k =
        (if toProgramKey it.programTo = some k then clampPts it.pointsFinal else 0)
          - (if toProgramKey it.programFrom = some k
             then clampPts it.pointsDebitedFromOrigin else 0)) ∧
    (∀ (items : List PurchaseItem) (it : PurchaseItem) (k : ProgramKey),
      toProgramKey it.programTo = none → toProgramKey it.programFrom = none →
      computeProgramDeltas (it :: items) k = computeProgramDeltas items k) ∧
    (∀ q : ℚ, 0 ≤ q → clampPts (.fin q) = ⌊q⌋) ∧
    (∀ q : ℚ, q < 0 → clampPts (.fin q) = 0) ∧
    clampPts .nonFinite = 0 ∧
    toProgramKey (some "FLYING_BLUE") = some .flyingBlue ∧
    toProgramKey (some " flying_blue ") = some .flyingBlue ∧
    toProgramKey (some "NO_SUCH_PROGRAM") = none := by
  refine ⟨computeProgramDeltas_eq_sum, fun k => rfl, fun it k h => itemContrib_canceled h,
    ?_, ?_, ?_, fun q h => clampPts_fin_nonneg h, fun q h => clampPts_fin_neg h,
    rfl, by decide, by decide, by decide⟩
  · intro items it k h
    rw [computeProgramDeltas_eq_sum, computeProgramDeltas_eq_sum, List.map_cons,
      List.sum_cons, itemContrib_canceled h, zero_add]
  · intro it k h
    simp only [itemContrib, beq_iff_eq, if_neg h]
  · intro items it k h1 h2
    rw [computeProgramDeltas_eq_sum, computeProgramDeltas_eq_sum, List.map_cons,
      List.sum_cons, itemContrib_unresolved h1 h2, zero_add]

/-- Witness for C2: the concrete two-item list (one pending conversion,
one canceled item with extreme values) evaluated at LATAM. -/
theorem claim_C2_witness :
    computeProgramDeltas [exItem, exItemCanceled] ProgramKey.latam =
      ([exItem, exItemCanceled].map (fun it => itemContrib it ProgramKey.latam)).sum ∧
    computeProgramDeltas [exItem, exItemCanceled] ProgramKey.latam = 20 ∧
    itemContrib exItemCanceled ProgramKey.latam = 0 := by
  refine ⟨claim_C2_delta_resolver.1 _ _, by decide, ?_⟩
  exact claim_C2_delta_resolver.2.2.1 exItemCanceled ProgramKey.latam (by decide)

/-- C10: Order-independence of the Delta Resolver.  For every list of
purchase items and every permutation of it, `computeProgramDeltas`
returns the same delta map: each item's contribution is an independent
additive term. -/
theorem claim_C10_delta_order_independence :
    ∀ (l1 l2 : List PurchaseItem), l1.Perm l2 →
      computeProgramDeltas l1 = computeProgramDeltas l2 := by
  intro l1 l2 hp
  funext k
  rw [computeProgramDeltas_eq_sum, computeProgramDeltas_eq_sum]
  exact List.Perm.sum_eq (hp.map _)

/-- Witness for C10: swapping the two concrete items leaves the delta
map unchanged. -/
theorem claim_C10_witness :
    computeProgramDeltas [exItem, exItemCanceled] =
      computeProgramDeltas [exItemCanceled, exItem] :=
  claim_C10_delta_order_independence _ _ (List.Perm.swap _ _ _)

/-- C9: Override presence is decided by nullish value, not key
membership.  An override of 0 is present and forces the applied
balance to 0 (beating predicted and computed); a `null`/`undefined`/
absent field is skipped and resolution falls through to the next tier;
a non-finite or negative override counts as present and is clamped to
0. -/
theorem claim_C9_override_nullish :
    (∀ (ov : SaldosAplicados) (p : Purchase) (current deltas : ProgramKey → ℤ)
        (k : ProgramKey), overrideOf ov k = some (.fin 0) →
      resolveApplied ov p current deltas k = 0) ∧
    (∀ (ov : SaldosAplicados) (p : Purchase) (current deltas : ProgramKey → ℤ)
        (k : ProgramKey), overrideOf ov k = none →
      resolveApplied ov p current deltas k =
        (match (if isLegacy k then predictedOf p k else none) with
         | some n => clampInt n
         | none => clampInt (current k + deltas k))) ∧
    (∀ (ov : SaldosAplicados) (p : Purchase) (current deltas : ProgramKey → ℤ)
        (k : ProgramKey), overrideOf ov k = some .nonFinite →
      resolveApplied ov p current deltas k = 0) ∧
    (∀ (ov : SaldosAplicados) (p : Purchase) (current deltas : ProgramKey → ℤ)
        (k : ProgramKey) (q : ℚ), q < 0 → overrideOf ov k = some (.fin q) →
      resolveApplied ov p current deltas k = 0) := by
  refine ⟨?_, ?_, ?_, ?_⟩
  · intro ov p current deltas k hov
    rw [resolveApplied_eq_spec]
    unfold resolveAppliedSpec
    rw [hov]
    show clampPts (JsNum.fin 0) = 0
    decide
  · intro ov p current deltas k hov
    rw [resolveApplied_eq_spec]
    unfold resolveAppliedSpec
    rw [hov]
  · intro ov p current deltas k hov
    rw [resolveApplied_eq_spec]
    unfold resolveAppliedSpec
    rw [hov]
    rfl
  · intro ov p current deltas k q hq hov
    rw [resolveApplied_eq_spec]
    unfold resolveAppliedSpec
    rw [hov]
    exact clampPts_fin_neg hq

/-- Witness for C9: on the concrete purchase, an override of 0 forces
LATAM to 0, an absent override lets the predicted 150 through, and
non-finite or negative overrides clamp to 0. -/
theorem claim_C9_witness :
    resolveApplied { latam := some (.fin 0) } exPurchase
      (fun j => clampInt (pointsOf exCedente j))
      (computeProgramDeltas [exItem]) ProgramKey.latam = 0 ∧
    resolveApplied {} exPurchase (fun j => clampInt (pointsOf exCedente j))
      (computeProgramDeltas [exItem]) ProgramKey.latam = 150 ∧
    resolveApplied { latam := some .nonFinite } exPurchase
      (fun j => clampInt (pointsOf exCedente j))
      (computeProgramDeltas [exItem]) ProgramKey.latam = 0 ∧
    resolveApplied { latam := some (.fin (-7)) } exPurchase
      (fun j => clampInt (pointsOf exCedente j))
      (computeProgramDeltas [exItem]) ProgramKey.latam = 0 := by
  refine ⟨?_, by decide, ?_, ?_⟩
  · exact claim_C9_override_nullish.1 _ _ _ _ ProgramKey.latam rfl
  · exact claim_C9_override_nullish.2.2.1 _ _ _ _ ProgramKey.latam rfl
  · exact claim_C9_override_nullish.2.2.2 _ _ _ _ ProgramKey.latam (-7) (by norm_num) rfl

/-- C3: Idempotent release / one-way close.  Releasing a purchase whose
status is not OPEN fails with the invalid-state bad-request and leaves
the store untouched; the same check is enforced again on the
transaction's own re-read; and after a successful release, a second
sequential call on the same purchase fails with that bad-request and
leaves the store exactly as the first release left it. -/
theorem claim_C3_idempotent_release :
    (∀ (r i : DB → DB) (f : Option ℕ) (now : ℕ) (db : DB) (id : String)
        (sess : Option String) (ov : SaldosAplicados) (p : Purchase),
      id ≠ "" → sess.getD "" ≠ "" →
      findPurchase db id = some p → p.status ≠ "OPEN" →
      releasePurchase r i f now db id sess ov =
        (.badRequest "Só pode liberar compra OPEN.", db)) ∧
    (∀ (fault : Option ℕ) (now : ℕ) (db : DB) (id userId : String)
        (ov : SaldosAplicados) (p : Purchase),
      findPurchase db id = some p → p.status ≠ "OPEN" →
      releaseTx fault now db id userId ov =
        .error "Compra já não está OPEN (possível dupla liberação).") ∧
    (∀ (r i : DB → DB) (f : Option ℕ) (now : ℕ) (db : DB) (id : String)
        (sess : Option String) (ov : SaldosAplicados) (res : TxResult) (db' : DB)
        (r' i' : DB → DB) (f' : Option ℕ) (now' : ℕ) (sess' : Option String)
        (ov' : SaldosAplicados),
      releasePurchase r i f now db id sess ov = (.ok res, db') →
      sess'.getD "" ≠ "" →
      releasePurchase r' i' f' now' db' id sess' ov' =
        (.badRequest "Só pode liberar compra OPEN.", db')) := by
  refine ⟨?_, ?_, ?_⟩
  · intro r i f now db id sess ov p hid hsess hfind hst
    exact releasePurchase_notOpen hid hsess hfind hst
  · intro fault now db id userId ov p hfind hst
    exact releaseTx_notOpen fault now userId ov hfind hst
  · intro r i f now db id sess ov res db' r' i' f' now' sess' ov' h hsess'
    have hid : id ≠ "" := by
      intro hide
      subst hide
      simp [releasePurchase] at h
    obtain ⟨p', hp', hst'⟩ := releasePurchase_ok_closed_after h
    refine releasePurchase_notOpen hid hsess' hp' ?_
    rw [hst']
    decide

/-- Witness for C3: re-releasing the concrete purchase after the
successful release fails with the invalid-state bad-request and leaves
the post-release store unchanged. -/
theorem claim_C3_witness :
    releasePurchase (fun d => d) (fun d => d) none 6 exDB1 "p1" (some "u1") exOv =
      (.badRequest "Só pode liberar compra OPEN.", exDB1) :=
  claim_C3_idempotent_release.2.2 (fun d => d) (fun d => d) none 5 exDB "p1" (some "u1")
    exOv { compra := exPurchase1, commission := some exCommission1 } exDB1
    (fun d => d) (fun d => d) none 6 (some "u1") exOv (by decide) (by decide)

/-- C4: Transactional atomicity.  Whenever the operation reports the
generic "release failed" server error, the error came from an exception
inside the transaction, the underlying cause is attached as diagnostic
detail, and the store is exactly the pre-transaction store — no
balance, item, purchase or commission write is persisted; a storage
fault injected at any of the first three write statements always makes
the transaction raise; and conversely, whenever the transaction raises
after the pre-checks pass, the operation returns exactly the generic
server error with the cause attached and the pre-transaction store. -/
theorem claim_C4_transactional_atomicity :
    (∀ (r i : DB → DB) (f : Option ℕ) (now : ℕ) (db : DB) (id : String)
        (sess : Option String) (ov : SaldosAplicados) (m : String)
        (d : Option String) (db' : DB),
      releasePurchase r i f now db id sess ov = (.serverError m d, db') →
      m = "Falha ao liberar compra." ∧ db' = i (r db) ∧
        ∃ e, d = some e ∧ releaseTx f now (i (r db)) id (sess.getD "") ov = .error e) ∧
    (∀ (f : Option ℕ) (now : ℕ) (db : DB) (id : String) (sess : Option String)
        (ov : SaldosAplicados) (m : String) (d : Option String) (db' : DB),
      releasePurchase (fun x => x) (fun x => x) f now db id sess ov =
        (.serverError m d, db') → db' = db) ∧
    (∀ (k : ℕ), k < 3 → ∀ (now : ℕ) (db : DB) (id userId : String)
        (ov : SaldosAplicados),
      ∃ e, releaseTx (some k) now db id userId ov = .error e) ∧
    (∀ (r i : DB → DB) (f : Option ℕ) (now : ℕ) (db : DB) (id : String)
        (sess : Option String) (ov : SaldosAplicados) (p q : Purchase) (c1 : Cedente)
        (e : String),
      id ≠ "" → sess.getD "" ≠ "" →
      findPurchase db id = some p → p.status = "OPEN" →
      findPurchase (r db) id = some q → q.status = "OPEN" →
      findCedente (r db) q.cedenteId = some c1 →
      releaseTx f now (i (r db)) id (sess.getD "") ov = .error e →
      releasePurchase r i f now db id sess ov =
        (.serverError "Falha ao liberar compra." (some e), i (r db))) := by
  refine ⟨?_, ?_, ?_, ?_⟩
  · intro r i f now db id sess ov m d db' h
    exact releasePurchase_serverError_elim h
  · intro f now db id sess ov m d db' h
    exact (releasePurchase_serverError_elim h).2.1
  · intro k hk now db id userId ov
    unfold releaseTx
    cases hval : txValidate db id with
    | error e => exact ⟨e, rfl⟩
    | ok sc =>
      obtain ⟨s, c⟩ := sc
      exact ⟨simulatedFailureMsg, txBody_fault_error k hk now db id userId ov s c⟩
  · intro r i f now db id sess ov p q c1 e hid hsess hfind hst hfind1 hst1 hced htx
    simp [releasePurchase, hid, hsess, hfind, hst, hfind1, hst1, hced, htx]

/-- Witness for C4: injecting a storage fault into the bulk item update
of the concrete run rolls the whole store back to its initial value. -/
theorem claim_C4_witness :
    (releasePurchase (fun x => x) (fun x => x) (some 1) 5 exDB "p1" (some "u1") exOv).2
      = exDB :=
  claim_C4_transactional_atomicity.2.1 (some 1) 5 exDB "p1" (some "u1") exOv
    "Falha ao liberar compra." (some simulatedFailureMsg)
    (releasePurchase (fun x => x) (fun x => x) (some 1) 5 exDB "p1" (some "u1") exOv).2
    (by decide)

/-- C5: Non-negativity invariant.  Every applied balance is resolved
through the clamp and is therefore a non-negative integer; after a
successful transaction all nine counters of the updated cedente are
non-negative; and with current balance 10 and delta −50 (no override,
no predicted value) the applied balance is 0, not −40. -/
theorem claim_C5_nonnegativity :
    (∀ (ov : SaldosAplicados) (p : Purchase) (current deltas : ProgramKey → ℤ)
        (k : ProgramKey), 0 ≤ resolveApplied ov p current deltas k) ∧
    (∀ (fault : Option ℕ) (now : ℕ) (db : DB) (id userId : String)
        (ov : SaldosAplicados) (out : DB × TxResult) (s : Purchase) (c : Cedente),
      releaseTx fault now db id userId ov = .ok out →
      findPurchase db id = some s → findCedente db s.cedenteId = some c →
      ∃ c', findCedente out.1 s.cedenteId = some c' ∧ ∀ k, 0 ≤ pointsOf c' k) ∧
    (∀ (p : Purchase), p.saldoPrevistoLatam = none → p.saldoPrevistoSmiles = none →
      p.saldoPrevistoLivelo = none → p.saldoPrevistoEsfera = none →
      ∀ k, resolveApplied {} p (fun _ => 10) (fun _ => -50) k = 0) := by
  have hnn : ∀ (ov : SaldosAplicados) (p : Purchase) (current deltas : ProgramKey → ℤ)
      (k : ProgramKey), 0 ≤ resolveApplied ov p current deltas k := by
    intro ov p current deltas k
    rw [resolveApplied_eq_spec]
    unfold resolveAppliedSpec
    cases overrideOf ov k with
    | some v => exact clampPts_nonneg v
    | none =>
      cases (if isLegacy k then predictedOf p k else none) with
      | some n => exact clampInt_nonneg n
      | none => exact clampInt_nonneg _
  refine ⟨hnn, ?_, ?_⟩
  · intro fault now db id userId ov out s c hok hfind hced
    obtain ⟨s', c', hfind', hopen', hced', hout⟩ := releaseTx_ok_elim hok
    rw [hfind] at hfind'
    cases Option.some.inj hfind'
    rw [hced] at hced'
    cases Option.some.inj hced'
    refine ⟨setPoints c (appliedOf ov db id s c), ?_, ?_⟩
    · rw [hout]
      exact txSuccess_findCedente now db id userId ov s c hced
    · intro k
      rw [pointsOf_setPoints]
      exact hnn _ _ _ _ _
  · intro p h1 h2 h3 h4 k
    cases k <;>
      simp [resolveApplied, jsNullish, h1, h2, h3, h4, clampPts_intJs, clampInt]

/-- Witness for C5: on the concrete release the updated cedente's
counters are all non-negative. -/
theorem claim_C5_witness :
    0 ≤ pointsOf exCedente1 ProgramKey.latam ∧
    0 ≤ pointsOf exCedente1 ProgramKey.smiles ∧
    findCedente exDB1 "c1" = some exCedente1 := by
  obtain ⟨c', hc', hnn⟩ := claim_C5_nonnegativity.2.1 none 5 exDB "p1" "u1" exOv
    (exDB1, { compra := exPurchase1, commission := some exCommission1 })
    exPurchase exCedente (by decide) (by decide) (by decide)
  have h1 : findCedente exDB1 "c1" = some exCedente1 := by decide
  have hc'' : c' = exCedente1 := (Option.some.inj (h1.symm.trans hc')).symm
  subst hc''
  exact ⟨hnn ProgramKey.latam, hnn ProgramKey.smiles, h1⟩

/-- C7: Item transition frame property.  A successful release turns
every item of the purchase whose status is PENDING into RELEASED and
leaves every other item — non-PENDING items of this purchase (in
particular CANCELED ones) and all items of other purchases — exactly
as they were. -/
theorem claim_C7_item_frame :
    ∀ (fault : Option ℕ) (now : ℕ) (db : DB) (id userId : String)
      (ov : SaldosAplicados) (out : DB × TxResult),
      releaseTx fault now db id userId ov = .ok out →
      out.1.items = db.items.map (fun it =>
        if it.purchaseId == id && it.status == some "PENDING"
        then { it with status := some "RELEASED" } else it) ∧
      (∀ it ∈ db.items, ¬(it.purchaseId = id ∧ it.status = some "PENDING") →
        it ∈ out.1.items) ∧
      (∀ it ∈ db.items, it.purchaseId = id → it.status = some "PENDING" →
        { it with status := some "RELEASED" } ∈ out.1.items) := by
  intro fault now db id userId ov out hok
  obtain ⟨s, c, hfind, hopen, hced, hout⟩ := releaseTx_ok_elim hok
  have hitems : out.1.items = db.items.map (fun it =>
      if it.purchaseId == id && it.status == some "PENDING"
      then { it with status := some "RELEASED" } else it) := by
    rw [hout, txSuccess_fst_items]
  refine ⟨hitems, ?_, ?_⟩
  · intro it hmem hnot
    rw [hitems]
    have hcond : ¬((it.purchaseId == id && it.status == some "PENDING") = true) := by
      simpa using hnot
    have heq : (if it.purchaseId == id && it.status == some "PENDING"
        then { it with status := some "RELEASED" } else it) = it := if_neg hcond
    exact List.mem_map.mpr ⟨it, hmem, heq⟩
  · intro it hmem h1 h2
    rw [hitems]
    have hcond : (it.purchaseId == id && it.status == some "PENDING") = true := by
      simp [h1, h2]
    have heq : (if it.purchaseId == id && it.status == some "PENDING"
        then { it with status := some "RELEASED" } else it)
        = { it with status := some "RELEASED" } := if_pos hcond
    exact List.mem_map.mpr ⟨it, hmem, heq⟩

/-- Witness for C7: in the concrete run the pending item comes out
RELEASED and the canceled item comes out untouched. -/
theorem claim_C7_witness :
    exDB1.items = exDB.items.map (fun it =>
      if it.purchaseId == "p1" && it.status == some "PENDING"
      then { it with status := some "RELEASED" } else it) ∧
    exItemCanceled ∈ exDB1.items := by
  have h := claim_C7_item_frame none 5 exDB "p1" "u1" exOv
    (exDB1, { compra := exPurchase1, commission := some exCommission1 }) (by decide)
  refine ⟨h.1, ?_⟩
  exact h.2.1 exItemCanceled (by decide) (by intro hc; exact absurd hc.2 (by decide))

theorem commissionUpdate_purchaseId (u : String) (a : ℤ) (c : CedenteCommission) :
    (commissionUpdate u a c).purchaseId = c.purchaseId := rfl

/-- C6: Commission conditional upsert.  On a successful release with a
positive payable amount, exactly one commission keyed by the purchase
reference exists afterwards (assuming the unique-key invariant held
before): created with PENDING status when absent, otherwise updated in
place — amount replaced, status reset to PENDING, payment fields
cleared — never duplicated, commissions of other purchases untouched,
and the resulting commission is returned; with a non-positive payable
amount no commission is written and the returned commission is null. -/
theorem claim_C6_commission_upsert :
    ∀ (fault : Option ℕ) (now : ℕ) (db : DB) (id userId : String)
      (ov : SaldosAplicados) (out : DB × TxResult) (s : Purchase) (c : Cedente),
      releaseTx fault now db id userId ov = .ok out →
      findPurchase db id = some s →
      findCedente db s.cedenteId = some c →
      (0 < s.cedentePayCents.getD 0 →
        (db.commissions.countP (fun x => x.purchaseId == id) ≤ 1 →
          out.1.commissions.countP (fun x => x.purchaseId == id) = 1) ∧
        (∃ cm, out.2.commission = some cm ∧ cm ∈ out.1.commissions ∧
          cm.purchaseId = id ∧ cm.amountCents = s.cedentePayCents.getD 0 ∧
          cm.status = "PENDING" ∧ cm.paidAt = none ∧ cm.paidById = none) ∧
        (out.1.commissions.filter (fun x => !(x.purchaseId == id)) =
          db.commissions.filter (fun x => !(x.purchaseId == id))) ∧
        (db.commissions.find? (fun x => x.purchaseId == id) = none →
          out.1.commissions = db.commissions ++
            [commissionCreate (closeOf now userId (appliedOf ov db id s c) s) userId now
              (s.cedentePayCents.getD 0)]) ∧
        (∀ c0, db.commissions.find? (fun x => x.purchaseId == id) = some c0 →
          out.1.commissions = db.commissions.map (fun x =>
            if x.purchaseId == id
            then commissionUpdate userId (s.cedentePayCents.getD 0) x else x) ∧
          out.2.commission =
            some (commissionUpdate userId (s.cedentePayCents.getD 0) c0))) ∧
      (¬ 0 < s.cedentePayCents.getD 0 →
        out.1.commissions = db.commissions ∧ out.2.commission = none) := by
  intro fault now db id userId ov out s c hok hfind hced
  obtain ⟨s', c', hfind', hopen', hced', hout⟩ := releaseTx_ok_elim hok
  rw [hfind] at hfind'
  cases Option.some.inj hfind'
  rw [hced] at hced'
  cases Option.some.inj hced'
  have hsid : s.id = id := findPurchase_some_id db id s hfind
  constructor
  · intro hpos
    cases hf : db.commissions.find? (fun x => x.purchaseId == s.id) with
    | none =>
      obtain ⟨hcomm, hres⟩ := txSuccess_commission_pos_create hpos hf
      rw [← hout] at hcomm hres
      have hfnone : db.commissions.find? (fun x => x.purchaseId == id) = none := by
        rw [← hsid]; exact hf
      have hcmkey : (commissionCreate (closeOf now userId (appliedOf ov db id s c) s)
          userId now (s.cedentePayCents.getD 0)).purchaseId = id := hsid
      refine ⟨?_, ?_, ?_, fun _ => hcomm, ?_⟩
      · intro hcount
        rw [hcomm, List.countP_append]
        have hz : db.commissions.countP (fun x => x.purchaseId == id) = 0 := by
          rw [List.countP_eq_zero]
          intro a ha
          simpa using List.find?_eq_none.mp hfnone a ha
        rw [hz]
        simp [List.countP_cons, hcmkey]
      · refine ⟨commissionCreate (closeOf now userId (appliedOf ov db id s c) s)
          userId now (s.cedentePayCents.getD 0), hres, ?_, hcmkey, rfl, rfl, rfl, rfl⟩
        rw [hcomm]
        exact List.mem_append_right _ (List.mem_singleton_self _)
      · rw [hcomm, List.filter_append]
        have hone : ([commissionCreate (closeOf now userId (appliedOf ov db id s c) s)
            userId now (s.cedentePayCents.getD 0)].filter
              (fun x => !(x.purchaseId == id))) = [] := by
          simp [List.filter_cons, hcmkey]
        rw [hone, List.append_nil]
      · intro c0 hfc0
        simp [hfnone] at hfc0
    | some c0' =>
      obtain ⟨hcomm, hres⟩ := txSuccess_commission_pos_update hpos hf
      rw [← hout] at hcomm hres
      rw [hsid] at hcomm
      have hfsome : db.commissions.find? (fun x => x.purchaseId == id) = some c0' := by
        rw [← hsid]; exact hf
      have hg : ∀ x : CedenteCommission, (x.purchaseId == id) = true →
          (((commissionUpdate userId (s.cedentePayCents.getD 0) x).purchaseId == id)
            = true) := by
        intro x hx
        simpa [commissionUpdate_purchaseId] using hx
      have hc0key : c0'.purchaseId = id := by
        have := List.find?_some hfsome
        simpa using this
      have hc0mem : c0' ∈ db.commissions := List.mem_of_find?_eq_some hfsome
      refine ⟨?_, ?_, ?_, ?_, ?_⟩
      · intro hcount
        rw [hcomm, countP_condMap _ _ _ hg]
        have hpos' : 0 < db.commissions.countP (fun x => x.purchaseId == id) :=
          List.countP_pos_iff.mpr ⟨c0', hc0mem, by simp [hc0key]⟩
        omega
      · refine ⟨commissionUpdate userId (s.cedentePayCents.getD 0) c0', hres, ?_,
          by rw [commissionUpdate_purchaseId]; exact hc0key, rfl, rfl, rfl, rfl⟩
        rw [hcomm]
        have hm := List.mem_map_of_mem (fun x =>
          if x.purchaseId == id
          then commissionUpdate userId (s.cedentePayCents.getD 0) x else x) hc0mem
        simpa [hc0key] using hm
      · rw [hcomm]
        exact filter_neg_condMap _ _ _ hg
      · intro hnone
        simp [hfsome] at hnone
      · intro c0 hfc0
        have : c0' = c0 := Option.some.inj (hfsome.symm.trans hfc0)
        subst this
        exact ⟨hcomm, hres⟩
  · intro hneg
    obtain ⟨hcomm, hres⟩ := txSuccess_commission_neg hneg
    rw [← hout] at hcomm hres
    exact ⟨hcomm, hres⟩

/-- Witness for C6: the concrete run (payable amount 5000, no prior
commission) ends with exactly one PENDING commission of 5000 keyed by
the purchase. -/
theorem claim_C6_witness :
    exDB1.commissions.countP (fun x => x.purchaseId == "p1") = 1 ∧
    exCommission1.status = "PENDING" ∧ exCommission1.amountCents = 5000 := by
  have h := claim_C6_commission_upsert none 5 exDB "p1" "u1" exOv
    (exDB1, { compra := exPurchase1, commission := some exCommission1 })
    exPurchase exCedente (by decide) (by decide) (by decide)
  exact ⟨(h.1 (by decide)).1 (by decide), rfl, rfl⟩

/-- A concurrent interference that deletes every cedente between the
pre-transaction checks and the transaction's snapshot read. -/
def exInterfere (d : DB) : DB := { d with cedentes := [] }

/-- Counterexample for C8.  On this invocation the purchase exists and
is OPEN but the transaction's re-read finds no cedente (a concurrent
writer removed it after the pre-transaction check passed): the
operation fails as a 500 server error — not as a client-facing 4xx —
with the missing-cedente message only attached as diagnostic detail.
This refutes the claim that a missing cedente on the in-transaction
re-read is surfaced as a 4xx. -/
theorem claim_C8_counterexample :
    releasePurchase (fun d => d) exInterfere none 5 exDB "p1" (some "u1") exOv =
      (Response.serverError "Falha ao liberar compra."
        (some "Cedente não encontrado na compra."), exInterfere exDB) ∧
    (releasePurchase (fun d => d) exInterfere none 5 exDB "p1"
      (some "u1") exOv).1.statusCode = 500 ∧
    findPurchase (exInterfere exDB) "p1" = some exPurchase ∧
    exPurchase.status = "OPEN" ∧
    findCedente (exInterfere exDB) exPurchase.cedenteId = none := by
  refine ⟨by decide, by decide, by decide, rfl, by decide⟩

/-- C8 (amended): a missing cedente on the pre-transaction re-read
fails with the bad-request "Cedente não encontrado na compra." (an
InvalidState-class client-facing 400, not a 404 NotFound) and performs
no writes beyond the recompute collaborator; a missing cedente on the
in-transaction re-read makes the transaction throw that same message,
which the outer handler surfaces as a 500 server error with the message
as diagnostic detail, the store staying exactly the pre-transaction
store (zero writes). -/
theorem claim_C8_missing_cedente :
    (∀ (r i : DB → DB) (f : Option ℕ) (now : ℕ) (db : DB) (id : String)
        (sess : Option String) (ov : SaldosAplicados) (p q : Purchase),
      id ≠ "" → sess.getD "" ≠ "" →
      findPurchase db id = some p → p.status = "OPEN" →
      findPurchase (r db) id = some q → q.status = "OPEN" →
      findCedente (r db) q.cedenteId = none →
      releasePurchase r i f now db id sess ov =
        (.badRequest "Cedente não encontrado na compra.", r db) ∧
      (Response.badRequest "Cedente não encontrado na compra.").statusCode = 400) ∧
    (∀ (fault : Option ℕ) (now : ℕ) (db : DB) (id userId : String)
        (ov : SaldosAplicados) (s : Purchase),
      findPurchase db id = some s → s.status = "OPEN" →
      findCedente db s.cedenteId = none →
      releaseTx fault now db id userId ov =
        .error "Cedente não encontrado na compra.") ∧
    (∀ (r i : DB → DB) (f : Option ℕ) (now : ℕ) (db : DB) (id : String)
        (sess : Option String) (ov : SaldosAplicados) (m : String)
        (d : Option String) (db' : DB),
      releasePurchase r i f now db id sess ov = (.serverError m d, db') →
      (Response.serverError m d).statusCode = 500 ∧ db' = i (r db)) := by
  refine ⟨?_, ?_, ?_⟩
  · intro r i f now db id sess ov p q hid hsess hfind hst hfind1 hst1 hced
    exact ⟨releasePurchase_noCedente_pre hid hsess hfind hst hfind1 hst1 hced, rfl⟩
  · intro fault now db id userId ov s hfind hopen hced
    exact releaseTx_noCedente fault now userId ov hfind hopen hced
  · intro r i f now db id sess ov m d db' h
    exact ⟨rfl, (releasePurchase_serverError_elim h).2.1⟩

/-- Witness for C8's amended claim: on a concrete store whose cedente
is missing from the start, the release fails pre-transaction with the
400 bad-request and the store is unchanged. -/
theorem claim_C8_witness :
    releasePurchase (fun d => d) (fun d => d) none 5
        { exDB with cedentes := [] } "p1" (some "u1") exOv =
      (.badRequest "Cedente não encontrado na compra.", { exDB with cedentes := [] }) := by
  have h := (claim_C8_missing_cedente.1 (fun d => d) (fun d => d) none 5
    { exDB with cedentes := [] } "p1" (some "u1") exOv exPurchase exPurchase
    (by decide) (by decide) (by decide) rfl (by decide) rfl (by decide)).1
  exact h

end LoiroDasMilhas

